import Mathlib

/-!
Verification of the NFT metadata synchronization pipeline
(source: src/syncNFTMetadata.js).

The JavaScript source is shallowly embedded below: pure helpers become Lean
functions on `String`/`List Char`; every network interaction (chain RPC call,
HTTP GET, database lookup/write) is abstracted as an explicit oracle argument
so that the control flow of the source can be proved deterministically.
-/

namespace SyncNFT

/-! ## Embedding of the JavaScript string operations used by the source -/

/-- Embedding of JS `String.prototype.startsWith` (character-list semantics). -/
def strStartsWith (s pat : String) : Bool :=
  pat.data.isPrefixOf s.data

/-- Bool test: does `sub` occur as a contiguous sublist? Embeds JS
`String.prototype.includes` at the character-list level. -/
def listHasInfix (sub : List Char) : List Char → Bool
  | [] => sub.isEmpty
  | c :: cs => sub.isPrefixOf (c :: cs) || listHasInfix sub cs

/-- Embedding of JS `String.prototype.includes`. -/
def strIncludes (s sub : String) : Bool :=
  listHasInfix sub.data s.data

/-- Replace the first occurrence of `pat` by `rep`, as JS
`String.prototype.replace` does with a string pattern. -/
def listReplaceFirst (pat rep : List Char) : List Char → List Char
  | [] => if pat.isPrefixOf ([] : List Char) then rep else []
  | c :: cs =>
      if pat.isPrefixOf (c :: cs) then rep ++ (c :: cs).drop pat.length
      else c :: listReplaceFirst pat rep cs

/-- Embedding of JS `s.replace(pat, rep)` (first occurrence only). -/
def jsReplaceFirst (s pat rep : String) : String :=
  String.mk (listReplaceFirst pat.data rep.data s.data)

/-- Drop the first `n` characters of a string. -/
def strDrop (s : String) (n : Nat) : String :=
  String.mk (s.data.drop n)

/-- First-occurrence splitter: returns the part before the first occurrence
of `sep` and, if `sep` occurs, the remainder after it. -/
def splitFirstAux (sep : List Char) : List Char → List Char × Option (List Char)
  | [] => ([], none)
  | c :: cs =>
      if sep.isPrefixOf (c :: cs) then ([], some ((c :: cs).drop sep.length))
      else
        let r := splitFirstAux sep cs
        (c :: r.1, r.2)

/-- Fueled splitting at every occurrence of `sep`, as JS
`String.prototype.split` with a string separator. -/
def jsSplitAux (sep : List Char) : Nat → List Char → List (List Char)
  | 0, l => [l]
  | fuel + 1, l =>
      match splitFirstAux sep l with
      | (h, none) => [h]
      | (h, some rest) => h :: jsSplitAux sep fuel rest

/-- Embedding of JS `s.split(sep)`. -/
def jsSplit (s sep : String) : List String :=
  (jsSplitAux sep.data (s.data.length + 1) s.data).map (fun l => String.mk l)

/-- Embedding of JS `String.prototype.toLowerCase` (ASCII range, which covers
the hex addresses compared by the source). -/
def jsToLower (s : String) : String :=
  String.mk (s.data.map Char.toLower)

/-- JS truthiness of a nullable string value: `null`/`undefined` and the
empty string are falsy. -/
def isTruthy : Option String → Bool
  | none => false
  | some s => if s = "" then false else true

/-! ## Link Resolver (source function `resolveLink`, lines 64-70) -/

/-- Embedding of `resolveLink(uri, gateway)`:
`if (!uri) return null; if (uri.startsWith("ipfs://")) return
uri.replace("ipfs://", gateway); return uri;`. -/
def resolveLink (uri : Option String) (gateway : String) : Option String :=
  match uri with
  | none => none
  | some u =>
      if u = "" then none
      else if strStartsWith u "ipfs://" then some (jsReplaceFirst u "ipfs://" gateway)
      else some u

/-! ## Helper lemmas about the string embedding -/

lemma listReplaceFirst_pos (pat rep : List Char) (l : List Char)
    (h : pat.isPrefixOf l = true) :
    listReplaceFirst pat rep l = rep ++ l.drop pat.length := by
  cases l with
  | nil =>
      have hp : pat = [] := by
        cases pat with
        | nil => rfl
        | cons a as => simp [List.isPrefixOf] at h
      subst hp
      simp [listReplaceFirst]
  | cons c cs => simp [listReplaceFirst, h]

lemma strStartsWith_ne_empty (u : String) (h : strStartsWith u "ipfs://" = true) :
    u ≠ "" := by
  intro he
  subst he
  exact absurd h (by decide)

/-- Claim C8: `resolve(pointer, gateway)` returns null on a null or empty
pointer, substitutes the gateway base for a leading `ipfs://` prefix
(returning gateway ++ remainder), and returns any other pointer unchanged;
in particular `resolve("ipfs://abc123", "https://ipfs.io/ipfs/") =
"https://ipfs.io/ipfs/abc123"`. -/
theorem claim8_resolve :
    (∀ g, resolveLink none g = none) ∧
    (∀ g, resolveLink (some "") g = none) ∧
    (∀ u g, strStartsWith u "ipfs://" = true →
        resolveLink (some u) g = some (g ++ strDrop u 7)) ∧
    (∀ u g, u ≠ "" → strStartsWith u "ipfs://" = false →
        resolveLink (some u) g = some u) ∧
    resolveLink (some "ipfs://abc123") "https://ipfs.io/ipfs/"
      = some "https://ipfs.io/ipfs/abc123" := by
  refine ⟨fun g => rfl, fun g => rfl, ?_, ?_, by decide⟩
  · intro u g h
    have hne : u ≠ "" := strStartsWith_ne_empty u h
    have hlen : ("ipfs://".data).length = 7 := by decide
    have hrep : listReplaceFirst ("ipfs://".data) g.data u.data
        = g.data ++ u.data.drop 7 := by
      rw [listReplaceFirst_pos _ _ _ h, hlen]
    simp only [resolveLink, if_neg hne, h, if_pos, jsReplaceFirst, hrep]
    cases g with
    | mk gd => rfl
  · intro u g hne h
    simp [resolveLink, hne, h]

/-- Witness for claim C8 at a concrete input with an `ipfs://` prefix. -/
theorem claim8_witness :
    resolveLink (some "ipfs://xyz9") "https://gw.example/"
      = some ("https://gw.example/" ++ strDrop "ipfs://xyz9" 7) :=
  claim8_resolve.2.2.1 "ipfs://xyz9" "https://gw.example/" (by decide)

/-! ## Metadata Fetcher (source function `fetchMetadataWithRetry`, lines 73-111)

The network is abstracted as an oracle `http : String → FetchResult` mapping a
requested URL to the outcome of the GET: `httpErr` (non-2xx status, network
error or timeout), `parseErr` (2xx but the body is not parseable JSON) or
`ok j` (2xx with parsed JSON body `j`). -/

/-- Minimal JSON shape relevant to the source: `null` (falsy in JS) and an
object probed for the `name`, `image` and `image_url` fields. -/
inductive Json where
  | null : Json
  | obj (name image image_url : Option String) : Json
deriving DecidableEq

/-- Outcome of one HTTP GET attempt. -/
inductive FetchResult where
  | httpErr : FetchResult
  | parseErr : FetchResult
  | ok (j : Json) : FetchResult
deriving DecidableEq

/-- Whether an attempt produced a 2xx response with a parseable JSON body. -/
def FetchResult.isOk : FetchResult → Bool
  | .ok _ => true
  | _ => false

/-- Result of the whole metadata fetch: parsed JSON, or the
`Metadata fetch failed from all gateways` error (MetadataUnavailable). -/
inductive MetaResult where
  | ok (j : Json) : MetaResult
  | unavailable : MetaResult
deriving DecidableEq

/-- The `IPFS_GATEWAYS` constant (lines 31-36). -/
def IPFS_GATEWAYS : List String :=
  ["https://dweb.link/ipfs/",
   "https://ipfs.io/ipfs/",
   "https://gateway.pinata.cloud/ipfs/",
   "https://cloudflare-ipfs.com/ipfs/"]

/-- Guard of the direct-GET attempt (line 75):
`tokenURI.startsWith("http") && !tokenURI.includes("ipfs")`. -/
def directGuard (tokenURI : String) : Bool :=
  strStartsWith tokenURI "http" && !(strIncludes tokenURI "ipfs")

/-- Identifier extraction (lines 82-88): strip a leading `ipfs://`, else take
the segment after the first embedded `/ipfs/`, else the pointer verbatim. -/
def extractIdentifier (tokenURI : String) : String :=
  if strStartsWith tokenURI "ipfs://" then jsReplaceFirst tokenURI "ipfs://" ""
  else if strIncludes tokenURI "/ipfs/" then (jsSplit tokenURI "/ipfs/").getD 1 "undefined"
  else tokenURI

/-- The gateway loop (lines 91-109): for each gateway in order, GET
`gateway ++ hash`; the first attempt that is 2xx with parseable JSON wins.
Returns the result together with the list of URLs requested, in order. -/
def gatewayLoop (http : String → FetchResult) (hash : String) :
    List String → MetaResult × List String
  | [] => (MetaResult.unavailable, [])
  | g :: gs =>
      let url := g ++ hash
      match http url with
      | FetchResult.ok j => (MetaResult.ok j, [url])
      | _ =>
          let r := gatewayLoop http hash gs
          (r.1, url :: r.2)

/-- Instrumented result of `fetchMetadataWithRetry`: the outcome, whether the
direct GET was attempted, and the gateway URLs requested in order. -/
structure FetchTrace where
  result : MetaResult
  directTried : Bool
  gatewayTried : List String
deriving DecidableEq

/-- Embedding of `fetchMetadataWithRetry(tokenURI)` (lines 73-111). The direct
attempt short-circuits only on a 2xx response with parseable JSON (a parse
failure is swallowed by the enclosing `try`/`catch` and falls through). -/
def fetchMetadataWithRetry (http : String → FetchResult) (tokenURI : String) :
    FetchTrace :=
  let hash := extractIdentifier tokenURI
  let rest := gatewayLoop http hash IPFS_GATEWAYS
  if directGuard tokenURI then
    match http tokenURI with
    | FetchResult.ok j => ⟨MetaResult.ok j, true, []⟩
    | _ => ⟨rest.1, true, rest.2⟩
  else ⟨rest.1, false, rest.2⟩

/-! ### Gateway-loop lemmas -/

lemma gatewayLoop_all_fail (http : String → FetchResult) (hash : String) :
    ∀ gws : List String, (∀ g ∈ gws, (http (g ++ hash)).isOk = false) →
      gatewayLoop http hash gws
        = (MetaResult.unavailable, gws.map (fun g => g ++ hash)) := by
  intro gws
  induction gws with
  | nil => intro _; rfl
  | cons g gs ih =>
      intro h
      have hg := h g (by simp)
      have hrest := ih (fun g₁ hg₁ => h g₁ (by simp [hg₁]))
      cases hr : http (g ++ hash) with
      | ok j => rw [hr] at hg; simp [FetchResult.isOk] at hg
      | httpErr => simp [gatewayLoop, hr, hrest]
      | parseErr => simp [gatewayLoop, hr, hrest]

lemma gatewayLoop_first_ok (http : String → FetchResult) (hash : String) :
    ∀ (gs₁ : List String) (g : String) (gs₂ : List String) (j : Json),
      (∀ g₁ ∈ gs₁, (http (g₁ ++ hash)).isOk = false) →
      http (g ++ hash) = FetchResult.ok j →
      gatewayLoop http hash (gs₁ ++ g :: gs₂)
        = (MetaResult.ok j, (gs₁ ++ [g]).map (fun x => x ++ hash)) := by
  intro gs₁
  induction gs₁ with
  | nil => intro g gs₂ j _ hok; simp [gatewayLoop, hok]
  | cons g₁ gs ih =>
      intro g gs₂ j hfail hok
      have hg₁ := hfail g₁ (by simp)
      have hrest := ih g gs₂ j (fun x hx => hfail x (by simp [hx])) hok
      cases hr : http (g₁ ++ hash) with
      | ok j₁ => rw [hr] at hg₁; simp [FetchResult.isOk] at hg₁
      | httpErr => simp [gatewayLoop, hr, hrest]
      | parseErr => simp [gatewayLoop, hr, hrest]

lemma gatewayLoop_err_iff (http : String → FetchResult) (hash : String) :
    ∀ gws : List String,
      ((gatewayLoop http hash gws).1 = MetaResult.unavailable ↔
        ∀ g ∈ gws, (http (g ++ hash)).isOk = false) := by
  intro gws
  induction gws with
  | nil => simp [gatewayLoop]
  | cons g gs ih =>
      cases hr : http (g ++ hash) with
      | ok j => simp [gatewayLoop, hr, FetchResult.isOk]
      | httpErr => simp [gatewayLoop, hr, FetchResult.isOk, ih]
      | parseErr => simp [gatewayLoop, hr, FetchResult.isOk, ih]

/-- When the direct attempt does not short-circuit, the fetch reduces to the
gateway loop. -/
lemma fetch_no_direct (http : String → FetchResult) (uri : String)
    (h : (directGuard uri && (http uri).isOk) = false) :
    fetchMetadataWithRetry http uri
      = ⟨(gatewayLoop http (extractIdentifier uri) IPFS_GATEWAYS).1,
         directGuard uri,
         (gatewayLoop http (extractIdentifier uri) IPFS_GATEWAYS).2⟩ := by
  cases hg : directGuard uri with
  | false => simp [fetchMetadataWithRetry, hg]
  | true =>
      rw [hg] at h
      simp only [Bool.true_and] at h
      cases hr : http uri with
      | ok j => rw [hr] at h; simp [FetchResult.isOk] at h
      | httpErr => simp [fetchMetadataWithRetry, hg, hr]
      | parseErr => simp [fetchMetadataWithRetry, hg, hr]

/-- Claim C3: for every pointer entering the gateway loop (the direct attempt
did not short-circuit), the fetch tries the configured gateway list in its
fixed order, returns the parsed JSON of the first gateway whose response is
HTTP-success with a parseable JSON body without requesting any later gateway,
and fails with MetadataUnavailable exactly when every gateway attempt fails. -/
theorem claim3_gateway_fetch (http : String → FetchResult) (uri : String)
    (hnd : (directGuard uri && (http uri).isOk) = false) :
    ((fetchMetadataWithRetry http uri).result = MetaResult.unavailable ↔
        ∀ g ∈ IPFS_GATEWAYS, (http (g ++ extractIdentifier uri)).isOk = false) ∧
    (∀ (gs₁ : List String) (g : String) (gs₂ : List String) (j : Json),
        IPFS_GATEWAYS = gs₁ ++ g :: gs₂ →
        (∀ g₁ ∈ gs₁, (http (g₁ ++ extractIdentifier uri)).isOk = false) →
        http (g ++ extractIdentifier uri) = FetchResult.ok j →
        (fetchMetadataWithRetry http uri).result = MetaResult.ok j ∧
        (fetchMetadataWithRetry http uri).gatewayTried
          = (gs₁ ++ [g]).map (fun x => x ++ extractIdentifier uri)) ∧
    ((∀ g ∈ IPFS_GATEWAYS, (http (g ++ extractIdentifier uri)).isOk = false) →
        (fetchMetadataWithRetry http uri).gatewayTried
          = IPFS_GATEWAYS.map (fun x => x ++ extractIdentifier uri)) := by
  rw [fetch_no_direct http uri hnd]
  refine ⟨gatewayLoop_err_iff http _ IPFS_GATEWAYS, ?_, ?_⟩
  · intro gs₁ g gs₂ j hsplit hfail hok
    rw [hsplit, gatewayLoop_first_ok http _ gs₁ g gs₂ j hfail hok]
    exact ⟨rfl, rfl⟩
  · intro hfail
    rw [gatewayLoop_all_fail http _ IPFS_GATEWAYS hfail]

/-- Concrete HTTP oracle for the claim C3 witness: only the second gateway
yields parseable JSON. -/
def httpW3 : String → FetchResult := fun u =>
  if u = "https://ipfs.io/ipfs/QmW3" then
    FetchResult.ok (Json.obj (some "Foo") (some "ipfs://img") none)
  else FetchResult.httpErr

/-- Witness for claim C3: with the first gateway failing and the second
succeeding, the second gateway's JSON is returned and only the first two
gateway URLs are requested. -/
theorem claim3_witness :
    (fetchMetadataWithRetry httpW3 "ipfs://QmW3").result
      = MetaResult.ok (Json.obj (some "Foo") (some "ipfs://img") none) ∧
    (fetchMetadataWithRetry httpW3 "ipfs://QmW3").gatewayTried
      = ["https://dweb.link/ipfs/QmW3", "https://ipfs.io/ipfs/QmW3"] := by
  have h := (claim3_gateway_fetch httpW3 "ipfs://QmW3" (by decide)).2.1
    ["https://dweb.link/ipfs/"] "https://ipfs.io/ipfs/"
    ["https://gateway.pinata.cloud/ipfs/", "https://cloudflare-ipfs.com/ipfs/"]
    (Json.obj (some "Foo") (some "ipfs://img") none)
    (by decide) (by decide) (by decide)
  exact ⟨h.1, h.2.trans (by decide)⟩

/-- Definition following the spec's words (section 4.3 steps 1-2 and the
glossary), for comparison with the source's guard: a pointer is a direct,
non-content-addressed URL when it is an `http(s)` URL that neither carries the
`ipfs://` scheme nor embeds an `/ipfs/` path marker. -/
def directUrlPerSpec (u : String) : Bool :=
  strStartsWith u "http" && !(strStartsWith u "ipfs://") && !(strIncludes u "/ipfs/")

/-- Concrete HTTP oracle for the claim C7 counterexample: the pointer itself
resolves to valid JSON, every other URL fails. -/
def httpC7 : String → FetchResult := fun u =>
  if u = "https://example.com/ipfs.json" then
    FetchResult.ok (Json.obj (some "A") none none)
  else FetchResult.httpErr

/-- Counterexample to claim C7 as stated: `"https://example.com/ipfs.json"` is
a direct, non-content-addressed URL (per the spec's own patterns) and a direct
GET on it would succeed with valid JSON, yet the code never attempts the
direct GET (the guard rejects any pointer containing the substring `"ipfs"`),
so the fetch falls to the gateway loop and fails with MetadataUnavailable. -/
theorem claim7_counterexample :
    directUrlPerSpec "https://example.com/ipfs.json" = true ∧
    (httpC7 "https://example.com/ipfs.json").isOk = true ∧
    (fetchMetadataWithRetry httpC7 "https://example.com/ipfs.json").directTried
      = false ∧
    (fetchMetadataWithRetry httpC7 "https://example.com/ipfs.json").result
      = MetaResult.unavailable := by
  exact ⟨by decide, by decide, by decide, by decide⟩

/-- Claim C7 (amended): the direct attempt is made exactly for pointers that
start with `"http"` and do not contain the substring `"ipfs"` anywhere; for
such a pointer, a 2xx response with a valid JSON body on the single direct GET
is returned immediately with no gateway request, and otherwise the fetch falls
through to identifier extraction and the gateway loop. -/
theorem claim7_direct_fetch (http : String → FetchResult) (uri : String)
    (h1 : directGuard uri = true) :
    (∀ j, http uri = FetchResult.ok j →
        fetchMetadataWithRetry http uri = ⟨MetaResult.ok j, true, []⟩) ∧
    ((http uri).isOk = false →
        fetchMetadataWithRetry http uri
          = ⟨(gatewayLoop http (extractIdentifier uri) IPFS_GATEWAYS).1, true,
             (gatewayLoop http (extractIdentifier uri) IPFS_GATEWAYS).2⟩) := by
  constructor
  · intro j hok
    simp [fetchMetadataWithRetry, h1, hok]
  · intro hfail
    have := fetch_no_direct http uri (by rw [h1, hfail]; rfl)
    rw [this, h1]

/-- Witness for claim C7 (amended): a plain JSON URL is fetched directly and
short-circuits. -/
theorem claim7_witness :
    fetchMetadataWithRetry
      (fun u => if u = "https://example.com/a.json" then
          FetchResult.ok (Json.obj (some "A") none none)
        else FetchResult.httpErr)
      "https://example.com/a.json"
      = ⟨MetaResult.ok (Json.obj (some "A") none none), true, []⟩ :=
  (claim7_direct_fetch
      (fun u => if u = "https://example.com/a.json" then
          FetchResult.ok (Json.obj (some "A") none none)
        else FetchResult.httpErr)
      "https://example.com/a.json" (by decide)).1
    (Json.obj (some "A") none none) (by decide)

/-! ## Endpoint Rotator (source `RPC_LIST`/`getProvider`, lines 23-44)

`RPC_LIST[0]` is `process.env.APECHAIN_RPC`, which may be absent (JS
`undefined`, modelled `none`) or set to a possibly empty string; the other
three entries are fixed non-empty literals. `getProvider` reads the entry at
`providerIndex % RPC_LIST.length`; a falsy entry yields a fixed fallback
provider WITHOUT advancing `providerIndex`, a truthy entry is returned and
the index advances. The cursor is threaded explicitly. -/

/-- The fixed fallback endpoint of `getProvider` (line 41). -/
def FALLBACK_RPC : String := "https://rpc.apechain.com/http"

/-- The `RPC_LIST` constant (lines 23-28), parameterized by the optional
`APECHAIN_RPC` environment value. -/
def RPC_LIST (primary : Option String) : List (Option String) :=
  [primary,
   some "https://rpc.apechain.com/http",
   some "https://apechain.drpc.org",
   some "https://33139.rpc.thirdweb.com"]

/-- `RPC_LIST.length` (4, whether or not the primary is configured). -/
def rpcCount : Nat := (RPC_LIST none).length

/-- The list entry read by `getProvider`:
`RPC_LIST[providerIndex % RPC_LIST.length]` (an absent env var is `none`). -/
def rpcEntry (rpcList : List (Option String)) (idx : Nat) : Option String :=
  rpcList.getD (idx % rpcList.length) none

/-- Embedding of `getProvider()` (lines 39-44): returns the endpoint handed
out and the new value of the `providerIndex` cursor. -/
def getProvider (rpcList : List (Option String)) (idx : Nat) : String × Nat :=
  match rpcEntry rpcList idx with
  | none => (FALLBACK_RPC, idx)
  | some r => if r = "" then (FALLBACK_RPC, idx) else (r, idx + 1)

/-- Counterexample to claim C9 as stated: with the configured primary
endpoint absent, `next()` does NOT advance the cursor — it returns the
fallback and leaves the cursor at position 0, so two immediately successive
calls hand out the same list position twice. -/
theorem claim9_counterexample :
    getProvider (RPC_LIST none) 0 = (FALLBACK_RPC, 0) ∧
    getProvider (RPC_LIST none) ((getProvider (RPC_LIST none) 0).2)
      = (FALLBACK_RPC, 0) := by
  decide

/-- Claim C9 (amended): `next()` always returns a non-empty endpoint URI;
when the list entry at the cursor is present and non-empty it is returned and
the cursor advances by one (read modulo the list length), but when the entry
at the cursor is absent or empty the fixed fallback endpoint is substituted
and the cursor does NOT advance, so immediately successive calls can hand out
the same list position twice (in particular the rotator sticks at an absent
primary). -/
theorem claim9_rotator (primary : Option String) (idx : Nat) :
    ((getProvider (RPC_LIST primary) idx).1 ≠ "") ∧
    (∀ r, rpcEntry (RPC_LIST primary) idx = some r →
        r ≠ "" → getProvider (RPC_LIST primary) idx = (r, idx + 1)) ∧
    ((rpcEntry (RPC_LIST primary) idx = none ∨
      rpcEntry (RPC_LIST primary) idx = some "") →
        getProvider (RPC_LIST primary) idx = (FALLBACK_RPC, idx)) ∧
    (primary = none → idx % (RPC_LIST primary).length = 0 →
        getProvider (RPC_LIST primary) idx = (FALLBACK_RPC, idx)) := by
  refine ⟨?_, ?_, ?_, ?_⟩
  · cases he : rpcEntry (RPC_LIST primary) idx with
    | none => simp [getProvider, he, FALLBACK_RPC]
    | some r =>
        by_cases hr : r = "" <;> simp [getProvider, he, hr, FALLBACK_RPC]
  · intro r he hr
    simp [getProvider, he, hr]
  · intro he
    rcases he with he | he <;> simp [getProvider, he]
  · intro hp h0
    subst hp
    have he : rpcEntry (RPC_LIST none) idx = none := by
      unfold rpcEntry
      rw [h0]
      rfl
    simp [getProvider, he]

/-- Witness for claim C9 (amended): with a configured non-empty primary and
the cursor at 0, `next()` hands out the primary and advances the cursor. -/
theorem claim9_witness :
    getProvider (RPC_LIST (some "https://myrpc.example")) 0
      = ("https://myrpc.example", 1) :=
  (claim9_rotator (some "https://myrpc.example") 0).2.1
    "https://myrpc.example" (by decide) (by decide)

/-! ## Chain Reader (source `processNFT` step 1, lines 118-137)

Each loop iteration issues `ownerOf` and `tokenURI` against the current
contract binding; the outcome of attempt `i` is given by an oracle
`att : Nat → ChainResult`. An error whose message contains
`"nonexistent token"` returns immediately (TokenNotFound); any other error
rebinds the contract to the next provider and retries; exhausting
`RPC_LIST.length` attempts throws `"RPC failed"` (ChainUnavailable). -/

/-- Outcome of one owner/tokenURI query attempt. -/
inductive ChainResult where
  | ok (owner uri : String) : ChainResult
  | errNonexistent : ChainResult
  | errOther : ChainResult
deriving DecidableEq

/-- Result of the bounded retry loop; `found`/`notFound` record how many
attempts were issued. -/
inductive ChainReadOutcome where
  | found (owner uri : String) (attempts : Nat) : ChainReadOutcome
  | notFound (attempts : Nat) : ChainReadOutcome
  | unavailable : ChainReadOutcome
deriving DecidableEq

/-- The retry loop of lines 121-135, with explicit fuel and attempt index. -/
def chainReadAux (att : Nat → ChainResult) : Nat → Nat → ChainReadOutcome
  | 0, _ => ChainReadOutcome.unavailable
  | fuel + 1, i =>
      match att i with
      | ChainResult.ok o u => ChainReadOutcome.found o u (i + 1)
      | ChainResult.errNonexistent => ChainReadOutcome.notFound (i + 1)
      | ChainResult.errOther => chainReadAux att fuel (i + 1)

/-- The chain read: at most `RPC_LIST.length` attempts. -/
def chainRead (att : Nat → ChainResult) : ChainReadOutcome :=
  chainReadAux att rpcCount 0

lemma chainReadAux_all_fail (att : Nat → ChainResult) :
    ∀ fuel i, (∀ j, j < fuel → att (i + j) = ChainResult.errOther) →
      chainReadAux att fuel i = ChainReadOutcome.unavailable := by
  intro fuel
  induction fuel with
  | zero => intro i _; rfl
  | succ f ih =>
      intro i h
      have h0 : att i = ChainResult.errOther := by
        have := h 0 (Nat.succ_pos f)
        simpa using this
      have hrest := ih (i + 1) (fun j hj => by
        have := h (j + 1) (Nat.succ_lt_succ hj)
        have harith : i + (j + 1) = i + 1 + j := by omega
        rwa [harith] at this)
      simp [chainReadAux, h0, hrest]

lemma chainReadAux_first_decides (att : Nat → ChainResult) :
    ∀ k fuel i, k < fuel → (∀ j, j < k → att (i + j) = ChainResult.errOther) →
      ((∀ o u, att (i + k) = ChainResult.ok o u →
          chainReadAux att fuel i = ChainReadOutcome.found o u (i + k + 1)) ∧
       (att (i + k) = ChainResult.errNonexistent →
          chainReadAux att fuel i = ChainReadOutcome.notFound (i + k + 1))) := by
  intro k
  induction k with
  | zero =>
      intro fuel i hk _
      cases fuel with
      | zero => omega
      | succ f =>
          constructor
          · intro o u hok
            have hok0 : att i = ChainResult.ok o u := by simpa using hok
            simp [chainReadAux, hok0]
          · intro hne
            have hne0 : att i = ChainResult.errNonexistent := by simpa using hne
            simp [chainReadAux, hne0]
  | succ k ih =>
      intro fuel i hk hother
      cases fuel with
      | zero => omega
      | succ f =>
          have h0 : att i = ChainResult.errOther := by
            have := hother 0 (Nat.succ_pos k)
            simpa using this
          have hstep := ih f (i + 1) (by omega) (fun j hj => by
            have := hother (j + 1) (Nat.succ_lt_succ hj)
            have harith : i + (j + 1) = i + 1 + j := by omega
            rwa [harith] at this)
          have harith : i + 1 + k = i + (k + 1) := by omega
          rw [harith] at hstep
          constructor
          · intro o u hok
            have := hstep.1 o u hok
            simp only [chainReadAux, h0]
            rw [this]
          · intro hne
            have := hstep.2 hne
            simp only [chainReadAux, h0]
            rw [this]

lemma chainReadAux_found_le (att : Nat → ChainResult) :
    ∀ fuel i o u n, chainReadAux att fuel i = ChainReadOutcome.found o u n →
      n ≤ i + fuel := by
  intro fuel
  induction fuel with
  | zero => intro i o u n h; simp [chainReadAux] at h
  | succ f ih =>
      intro i o u n h
      cases ha : att i with
      | ok o₁ u₁ =>
          simp [chainReadAux, ha] at h
          omega
      | errNonexistent => simp [chainReadAux, ha] at h
      | errOther =>
          simp only [chainReadAux, ha] at h
          have := ih (i + 1) o u n h
          omega

lemma chainReadAux_notFound_le (att : Nat → ChainResult) :
    ∀ fuel i n, chainReadAux att fuel i = ChainReadOutcome.notFound n →
      n ≤ i + fuel := by
  intro fuel
  induction fuel with
  | zero => intro i n h; simp [chainReadAux] at h
  | succ f ih =>
      intro i n h
      cases ha : att i with
      | ok o₁ u₁ => simp [chainReadAux, ha] at h
      | errNonexistent =>
          simp [chainReadAux, ha] at h
          omega
      | errOther =>
          simp only [chainReadAux, ha] at h
          have := ih (i + 1) n h
          omega

/-- Claim C2: the chain read makes at most `RPC_LIST.length` attempts; the
first attempt that fails with a "nonexistent token" error ends the read
immediately as TokenNotFound (no further endpoint tried); any other failure
rotates to the next attempt; and if every attempt fails without a
nonexistent-token signal the read ends as ChainUnavailable. -/
theorem claim2_chain_read (att : Nat → ChainResult) :
    (∀ k, k < rpcCount → (∀ j, j < k → att j = ChainResult.errOther) →
        ((att k = ChainResult.errNonexistent →
            chainRead att = ChainReadOutcome.notFound (k + 1)) ∧
         (∀ o u, att k = ChainResult.ok o u →
            chainRead att = ChainReadOutcome.found o u (k + 1)))) ∧
    ((∀ j, j < rpcCount → att j = ChainResult.errOther) →
        chainRead att = ChainReadOutcome.unavailable) ∧
    (∀ o u n, chainRead att = ChainReadOutcome.found o u n → n ≤ rpcCount) ∧
    (∀ n, chainRead att = ChainReadOutcome.notFound n → n ≤ rpcCount) := by
  refine ⟨?_, ?_, ?_, ?_⟩
  · intro k hk hother
    have h := chainReadAux_first_decides att k rpcCount 0 hk
      (fun j hj => by simpa using hother j hj)
    constructor
    · intro hne
      have := h.2 (by simpa using hne)
      simpa [chainRead] using this
    · intro o u hok
      have := h.1 o u (by simpa using hok)
      simpa [chainRead] using this
  · intro h
    have := chainReadAux_all_fail att rpcCount 0 (fun j hj => by
      simpa using h j (by simpa using hj))
    simpa [chainRead] using this
  · intro o u n h
    have := chainReadAux_found_le att rpcCount 0 o u n (by simpa [chainRead] using h)
    simpa using this
  · intro n h
    have := chainReadAux_notFound_le att rpcCount 0 n (by simpa [chainRead] using h)
    simpa using this

/-- Concrete attempt oracle for the claim C2 witness: the first endpoint
fails transiently, the second succeeds. -/
def attW2 : Nat → ChainResult := fun i =>
  if i = 0 then ChainResult.errOther else ChainResult.ok "0xA" "ipfs://QmW2"

/-- Witness for claim C2: after one transient failure the second endpoint's
answer is returned, in two attempts (within the bound). -/
theorem claim2_witness :
    chainRead attW2 = ChainReadOutcome.found "0xA" "ipfs://QmW2" 2 ∧
    (2 : Nat) ≤ rpcCount := by
  have h := ((claim2_chain_read attW2).1 1 (by decide)
    (by decide)).2 "0xA" "ipfs://QmW2" (by decide)
  exact ⟨h, by decide⟩

/-! ## Reconciliation and the per-token task (source `processNFT`, lines 116-199)

The prior persisted row (the Supabase point lookup of lines 157-161) is an
oracle `existing : Option PriorRow`; the upsert success (line 191) is an
oracle `dbOk : Bool`; `now` stands for `new Date().toISOString()`. -/

/-- The subset of columns selected from the prior row (line 159):
`buyer_address, seaport_order, price, order_hash`, each nullable. -/
structure PriorRow where
  buyer_address : Option String
  seaport_order : Option String
  price : Option String
  order_hash : Option String
deriving DecidableEq

/-- Static configuration copied into every record. -/
structure Config where
  nft_contract : String
  marketplace_contract : String
deriving DecidableEq

/-- The record passed to the upsert (lines 169-188). -/
structure UpsertRecord where
  tokenid : String
  nft_contract : String
  marketplace_contract : String
  buyer_address : String
  on_chain : Bool
  name : String
  image : Option String
  seaport_order : Option String
  price : Option String
  order_hash : Option String
  updatedat : String
deriving DecidableEq

/-- Lines 163-166: wipe the listing exactly when a prior row exists, its
`buyer_address` is truthy (non-null, non-empty) and it differs from the new
owner after lower-casing both sides. -/
def shouldWipeOrder (existing : Option PriorRow) (owner : String) : Bool :=
  match existing with
  | none => false
  | some ed =>
      match ed.buyer_address with
      | none => false
      | some b =>
          if b = "" then false
          else if jsToLower b = jsToLower owner then false else true

/-- Lines 140-154: the display name is `metadata.name` when the fetch
succeeded, the value is truthy and the field is truthy; otherwise the
synthesized `NFT #<id>`. -/
def metaName (tokenid : Nat) (m : MetaResult) : String :=
  let deflt := "NFT #" ++ toString tokenid
  match m with
  | MetaResult.unavailable => deflt
  | MetaResult.ok Json.null => deflt
  | MetaResult.ok (Json.obj n _ _) => if isTruthy n then n.getD deflt else deflt

/-- Lines 140-154: the image is `metadata.image` when truthy, else
`metadata.image_url` when truthy, else null (also null when the fetch failed
or the parsed document is JSON `null`). -/
def metaImage (m : MetaResult) : Option String :=
  match m with
  | MetaResult.unavailable => none
  | MetaResult.ok Json.null => none
  | MetaResult.ok (Json.obj _ i iu) =>
      if isTruthy i then i else if isTruthy iu then iu else none

/-- Lines 169-188: assemble the upsert payload. Listing fields are carried
from the prior row when `!shouldWipeOrder && existingData`, else null. -/
def buildUpsert (cfg : Config) (tokenid : Nat) (owner : String)
    (nm : String) (img : Option String) (existing : Option PriorRow)
    (now : String) : UpsertRecord :=
  let wipe := shouldWipeOrder existing owner
  { tokenid := toString tokenid
    nft_contract := cfg.nft_contract
    marketplace_contract := cfg.marketplace_contract
    buyer_address := jsToLower owner
    on_chain := true
    name := nm
    image := img
    seaport_order :=
      match existing with
      | some ed => if wipe then none else ed.seaport_order
      | none => none
    price :=
      match existing with
      | some ed => if wipe then none else ed.price
      | none => none
    order_hash :=
      match existing with
      | some ed => if wipe then none else ed.order_hash
      | none => none
    updatedat := now }

/-- Outcome of one per-id task. `skippedNotFound` is the early return of line
130; `failedChain` is the outer catch; `wrote r dbSucceeded` is the upsert of
line 191 (a false flag is the logged-and-ignored DB error of line 193). -/
inductive TaskOutcome where
  | skippedNotFound : TaskOutcome
  | failedChain : TaskOutcome
  | wrote (r : UpsertRecord) (dbSucceeded : Bool) : TaskOutcome
deriving DecidableEq

/-- Result of one `processNFT(tokenid)` body before the outer `catch`:
either a thrown error message or a completed outcome. -/
inductive BodyResult where
  | thrown (msg : String) : BodyResult
  | done (o : TaskOutcome) : BodyResult
deriving DecidableEq

/-- The body of `processNFT` (lines 117-194): chain read, metadata fetch
(whose failure is swallowed at lines 151-154), prior-row lookup,
reconciliation and upsert. -/
def processNFTBody (att : Nat → ChainResult) (http : String → FetchResult)
    (existing : Option PriorRow) (dbOk : Bool) (cfg : Config) (now : String)
    (tokenid : Nat) : BodyResult :=
  match chainRead att with
  | ChainReadOutcome.notFound _ => BodyResult.done TaskOutcome.skippedNotFound
  | ChainReadOutcome.unavailable => BodyResult.thrown "RPC failed"
  | ChainReadOutcome.found owner uri _ =>
      let m := (fetchMetadataWithRetry http uri).result
      let nm := metaName tokenid m
      let img := metaImage m
      BodyResult.done
        (TaskOutcome.wrote (buildUpsert cfg tokenid owner nm img existing now) dbOk)

/-- `processNFT` with its outer `try`/`catch` (lines 117 and 196-198): any
thrown error is logged and the task completes without a write. -/
def processNFT (att : Nat → ChainResult) (http : String → FetchResult)
    (existing : Option PriorRow) (dbOk : Bool) (cfg : Config) (now : String)
    (tokenid : Nat) : TaskOutcome :=
  match processNFTBody att http existing dbOk cfg now tokenid with
  | BodyResult.thrown _ => TaskOutcome.failedChain
  | BodyResult.done o => o

/-- The record handed to the upsert, if any. -/
def upsertPayload : TaskOutcome → Option UpsertRecord
  | TaskOutcome.wrote r _ => some r
  | _ => none

/-- The record actually persisted, if any (a failed upsert persists nothing). -/
def persistedRecord : TaskOutcome → Option UpsertRecord
  | TaskOutcome.wrote r true => some r
  | _ => none

/-! ### Reconciliation helper lemmas -/

lemma buildUpsert_no_prior (cfg : Config) (tokenid : Nat) (owner nm : String)
    (img : Option String) (now : String) :
    (buildUpsert cfg tokenid owner nm img none now).seaport_order = none ∧
    (buildUpsert cfg tokenid owner nm img none now).price = none ∧
    (buildUpsert cfg tokenid owner nm img none now).order_hash = none := by
  simp [buildUpsert]

lemma buildUpsert_carry (cfg : Config) (tokenid : Nat) (owner nm : String)
    (img : Option String) (ed : PriorRow) (now : String)
    (h : shouldWipeOrder (some ed) owner = false) :
    (buildUpsert cfg tokenid owner nm img (some ed) now).seaport_order
        = ed.seaport_order ∧
    (buildUpsert cfg tokenid owner nm img (some ed) now).price = ed.price ∧
    (buildUpsert cfg tokenid owner nm img (some ed) now).order_hash
        = ed.order_hash := by
  simp [buildUpsert, h]

lemma buildUpsert_wipe (cfg : Config) (tokenid : Nat) (owner nm : String)
    (img : Option String) (ed : PriorRow) (now : String)
    (h : shouldWipeOrder (some ed) owner = true) :
    (buildUpsert cfg tokenid owner nm img (some ed) now).seaport_order = none ∧
    (buildUpsert cfg tokenid owner nm img (some ed) now).price = none ∧
    (buildUpsert cfg tokenid owner nm img (some ed) now).order_hash = none := by
  simp [buildUpsert, h]

lemma shouldWipeOrder_iff (ed : PriorRow) (owner : String) :
    shouldWipeOrder (some ed) owner = true ↔
      ∃ b, ed.buyer_address = some b ∧ b ≠ "" ∧ jsToLower b ≠ jsToLower owner := by
  cases hb : ed.buyer_address with
  | none => simp [shouldWipeOrder, hb]
  | some b =>
      by_cases h1 : b = ""
      · simp [shouldWipeOrder, hb, h1]
      · by_cases h2 : jsToLower b = jsToLower owner
        · simp [shouldWipeOrder, hb, h1, h2]
        · simp [shouldWipeOrder, hb, h1, h2]

lemma processNFT_found (att : Nat → ChainResult) (http : String → FetchResult)
    (existing : Option PriorRow) (dbOk : Bool) (cfg : Config) (now : String)
    (tokenid : Nat) (owner uri : String) (k : Nat)
    (hc : chainRead att = ChainReadOutcome.found owner uri k) :
    processNFT att http existing dbOk cfg now tokenid
      = TaskOutcome.wrote
          (buildUpsert cfg tokenid owner
            (metaName tokenid (fetchMetadataWithRetry http uri).result)
            (metaImage (fetchMetadataWithRetry http uri).result)
            existing now) dbOk := by
  simp [processNFT, processNFTBody, hc]

/-! ### Claims C1, C10, C4 -/

/-- Concrete prior row of the claim C1 counterexample: a row created by the
listing subsystem with an empty `buyer_address` and live listing fields. -/
def priorCE : PriorRow :=
  { buyer_address := some ""
    seaport_order := some "order1"
    price := some "5"
    order_hash := some "hash1" }

/-- Configuration used by concrete counterexamples and witnesses. -/
def cfgW : Config := { nft_contract := "0xNFTC", marketplace_contract := "0xMKTC" }

/-- Counterexample to claim C1 as stated: the prior row exists and its
`owner_address` (empty string) differs case-insensitively from the newly
observed owner `"0xAbC"`, yet the written record carries the prior listing
fields forward instead of nulling them — the wipe of lines 163-166 fires only
when the prior owner value is truthy. -/
theorem claim1_counterexample :
    jsToLower "" ≠ jsToLower "0xAbC" ∧
    priorCE.buyer_address = some "" ∧
    (buildUpsert cfgW 7 "0xAbC" "NFT #7" none (some priorCE) "t0").seaport_order
      = some "order1" ∧
    (buildUpsert cfgW 7 "0xAbC" "NFT #7" none (some priorCE) "t0").seaport_order
      ≠ none := by
  exact ⟨by decide, rfl, by decide, by decide⟩

/-- Claim C1 (amended): for every written record, if no prior row exists all
three listing fields are null; if a prior row exists whose `owner_address` is
present (non-null, non-empty) and differs case-insensitively from the new
owner, all three listing fields are null; and if a prior row exists with the
owner unchanged (case-insensitively) — or with a null or empty stored owner —
the three listing fields exactly equal the prior row's values. -/
theorem claim1_listing_reconciliation (cfg : Config) (tokenid : Nat)
    (owner nm : String) (img : Option String) (now : String) :
    ((buildUpsert cfg tokenid owner nm img none now).seaport_order = none ∧
     (buildUpsert cfg tokenid owner nm img none now).price = none ∧
     (buildUpsert cfg tokenid owner nm img none now).order_hash = none) ∧
    (∀ ed b, ed.buyer_address = some b → b ≠ "" → jsToLower b ≠ jsToLower owner →
        (buildUpsert cfg tokenid owner nm img (some ed) now).seaport_order = none ∧
        (buildUpsert cfg tokenid owner nm img (some ed) now).price = none ∧
        (buildUpsert cfg tokenid owner nm img (some ed) now).order_hash = none) ∧
    (∀ ed, (ed.buyer_address = none ∨ ed.buyer_address = some "" ∨
            (∃ b, ed.buyer_address = some b ∧ jsToLower b = jsToLower owner)) →
        (buildUpsert cfg tokenid owner nm img (some ed) now).seaport_order
            = ed.seaport_order ∧
        (buildUpsert cfg tokenid owner nm img (some ed) now).price = ed.price ∧
        (buildUpsert cfg tokenid owner nm img (some ed) now).order_hash
            = ed.order_hash) := by
  refine ⟨buildUpsert_no_prior cfg tokenid owner nm img now, ?_, ?_⟩
  · intro ed b hb hne hdiff
    exact buildUpsert_wipe cfg tokenid owner nm img ed now
      ((shouldWipeOrder_iff ed owner).2 ⟨b, hb, hne, hdiff⟩)
  · intro ed hcase
    refine buildUpsert_carry cfg tokenid owner nm img ed now ?_
    cases hw : shouldWipeOrder (some ed) owner with
    | false => rfl
    | true =>
        exfalso
        obtain ⟨b, hb, hne, hdiff⟩ := (shouldWipeOrder_iff ed owner).1 hw
        rcases hcase with h | h | ⟨b₁, hb₁, hsame⟩
        · rw [h] at hb
          exact Option.noConfusion hb
        · rw [h] at hb
          injection hb with hb2
          exact hne hb2.symm
        · rw [hb₁] at hb
          injection hb with hb2
          subst hb2
          exact hdiff hsame

/-- Witness for claim C1 (amended): unchanged owner (differing only in case)
carries the listing fields forward verbatim. -/
theorem claim1_witness :
    (buildUpsert cfgW 9 "0xab" "NFT #9" none
        (some { buyer_address := some "0xAB"
                seaport_order := some "o9"
                price := some "1"
                order_hash := some "h9" }) "t1").seaport_order = some "o9" ∧
    (buildUpsert cfgW 9 "0xab" "NFT #9" none
        (some { buyer_address := some "0xAB"
                seaport_order := some "o9"
                price := some "1"
                order_hash := some "h9" }) "t1").price = some "1" ∧
    (buildUpsert cfgW 9 "0xab" "NFT #9" none
        (some { buyer_address := some "0xAB"
                seaport_order := some "o9"
                price := some "1"
                order_hash := some "h9" }) "t1").order_hash = some "h9" := by
  have h := (claim1_listing_reconciliation cfgW 9 "0xab" "NFT #9" none "t1").2.2
    { buyer_address := some "0xAB"
      seaport_order := some "o9"
      price := some "1"
      order_hash := some "h9" }
    (Or.inr (Or.inr ⟨"0xAB", rfl, by decide⟩))
  exact h

/-- Claim C10: when the prior row's stored owner is null or empty (a row
created by the listing subsystem without an observed owner), the listing
fields are carried forward verbatim; the wipe fires exactly when the stored
owner is present, non-empty and differs case-insensitively from the new
owner. -/
theorem claim10_prior_null_owner (cfg : Config) (tokenid : Nat)
    (owner nm : String) (img : Option String) (now : String) (ed : PriorRow) :
    ((ed.buyer_address = none ∨ ed.buyer_address = some "") →
        (buildUpsert cfg tokenid owner nm img (some ed) now).seaport_order
            = ed.seaport_order ∧
        (buildUpsert cfg tokenid owner nm img (some ed) now).price = ed.price ∧
        (buildUpsert cfg tokenid owner nm img (some ed) now).order_hash
            = ed.order_hash) ∧
    (shouldWipeOrder (some ed) owner = true ↔
        ∃ b, ed.buyer_address = some b ∧ b ≠ "" ∧ jsToLower b ≠ jsToLower owner) := by
  constructor
  · intro hcase
    have hw : shouldWipeOrder (some ed) owner = false := by
      rcases hcase with h | h <;> simp [shouldWipeOrder, h]
    exact buildUpsert_carry cfg tokenid owner nm img ed now hw
  · exact shouldWipeOrder_iff ed owner

/-- Witness for claim C10: a prior row with a null stored owner carries its
listing fields into the new record even though the observed owner is new. -/
theorem claim10_witness :
    (buildUpsert cfgW 3 "0xNew" "NFT #3" none
        (some { buyer_address := none
                seaport_order := some "o3"
                price := some "2"
                order_hash := some "h3" }) "t2").seaport_order = some "o3" ∧
    (buildUpsert cfgW 3 "0xNew" "NFT #3" none
        (some { buyer_address := none
                seaport_order := some "o3"
                price := some "2"
                order_hash := some "h3" }) "t2").price = some "2" ∧
    (buildUpsert cfgW 3 "0xNew" "NFT #3" none
        (some { buyer_address := none
                seaport_order := some "o3"
                price := some "2"
                order_hash := some "h3" }) "t2").order_hash = some "h3" :=
  (claim10_prior_null_owner cfgW 3 "0xNew" "NFT #3" none "t2"
      { buyer_address := none
        seaport_order := some "o3"
        price := some "2"
        order_hash := some "h3" }).1 (Or.inl rfl)

/-- Counterexample to claim C4 as stated: in the parsed metadata the `image`
field is present (with value `""`), so the claim requires `image_ref` to
equal it; the code instead treats the empty string as absent and surfaces
`image_url`. -/
theorem claim4_counterexample :
    (some "" : Option String).isSome = true ∧
    metaImage (MetaResult.ok (Json.obj none (some "") (some "https://img.example/1.png")))
      = some "https://img.example/1.png" ∧
    metaImage (MetaResult.ok (Json.obj none (some "") (some "https://img.example/1.png")))
      ≠ some "" := by
  exact ⟨rfl, by decide, by decide⟩

/-- Claim C4 (amended): the written record's `display_name` equals
`metadata.name` when metadata was obtained with a present, non-empty name,
else the synthesized `NFT #<id>`; `image_ref` equals `metadata.image` when
present and NON-EMPTY, else `metadata.image_url` when present and non-empty,
else null; a failed fetch yields the synthesized name and a null image; and
the record written by `processNFT` carries exactly these two values. -/
theorem claim4_metadata_fields (tokenid : Nat) (m : MetaResult) :
    (m = MetaResult.unavailable →
        metaName tokenid m = "NFT #" ++ toString tokenid ∧ metaImage m = none) ∧
    (m = MetaResult.ok Json.null →
        metaName tokenid m = "NFT #" ++ toString tokenid ∧ metaImage m = none) ∧
    (∀ n i iu, m = MetaResult.ok (Json.obj n i iu) →
        ((∀ s, n = some s → s ≠ "" → metaName tokenid m = s) ∧
         ((n = none ∨ n = some "") →
            metaName tokenid m = "NFT #" ++ toString tokenid) ∧
         (∀ s, i = some s → s ≠ "" → metaImage m = some s) ∧
         ((i = none ∨ i = some "") →
            ∀ s, iu = some s → s ≠ "" → metaImage m = some s) ∧
         ((i = none ∨ i = some "") → (iu = none ∨ iu = some "") →
            metaImage m = none))) ∧
    (∀ (att : Nat → ChainResult) (http : String → FetchResult)
        (existing : Option PriorRow) (dbOk : Bool) (cfg : Config) (now : String)
        (owner uri : String) (k : Nat),
        chainRead att = ChainReadOutcome.found owner uri k →
        ∃ r, upsertPayload (processNFT att http existing dbOk cfg now tokenid)
              = some r ∧
          r.name = metaName tokenid (fetchMetadataWithRetry http uri).result ∧
          r.image = metaImage (fetchMetadataWithRetry http uri).result) := by
  refine ⟨?_, ?_, ?_, ?_⟩
  · intro hm; subst hm; exact ⟨rfl, rfl⟩
  · intro hm; subst hm; exact ⟨rfl, rfl⟩
  · intro n i iu hm
    subst hm
    refine ⟨?_, ?_, ?_, ?_, ?_⟩
    · intro s hs hne
      subst hs
      simp [metaName, isTruthy, hne]
    · intro hcase
      rcases hcase with h | h <;> subst h <;> simp [metaName, isTruthy]
    · intro s hs hne
      subst hs
      simp [metaImage, isTruthy, hne]
    · intro hcase s hs hne
      subst hs
      rcases hcase with h | h <;> subst h <;> simp [metaImage, isTruthy, hne]
    · intro hci hcu
      rcases hci with h | h <;> subst h <;>
        rcases hcu with h₁ | h₁ <;> subst h₁ <;> simp [metaImage, isTruthy]
  · intro att http existing dbOk cfg now owner uri k hc
    refine ⟨buildUpsert cfg tokenid owner
        (metaName tokenid (fetchMetadataWithRetry http uri).result)
        (metaImage (fetchMetadataWithRetry http uri).result) existing now,
      ?_, rfl, rfl⟩
    rw [processNFT_found att http existing dbOk cfg now tokenid owner uri k hc]
    rfl

/-- Concrete attempt oracle for the claim C4 witness: the chain read succeeds
immediately. -/
def attW4 : Nat → ChainResult := fun _ => ChainResult.ok "0xOwner" "ipfs://QmW4"

/-- Concrete HTTP oracle for the claim C4 witness: every gateway fails, so
the metadata fetch fails entirely. -/
def httpW4 : String → FetchResult := fun _ => FetchResult.httpErr

/-- Witness for claim C4 (amended): with the metadata fetch failing entirely,
the written record's name is the synthesized default and its image is null. -/
theorem claim4_witness :
    metaName 4 MetaResult.unavailable = "NFT #4" ∧
    metaImage MetaResult.unavailable = none ∧
    (∃ r, upsertPayload (processNFT attW4 httpW4 none true cfgW "t3" 4) = some r ∧
      r.name = metaName 4 (fetchMetadataWithRetry httpW4 "ipfs://QmW4").result ∧
      r.image = metaImage (fetchMetadataWithRetry httpW4 "ipfs://QmW4").result) := by
  have h := claim4_metadata_fields 4 MetaResult.unavailable
  refine ⟨(h.1 rfl).1, (h.1 rfl).2, ?_⟩
  exact h.2.2.2 attW4 httpW4 none true cfgW "t3" "0xOwner" "ipfs://QmW4" 1 (by decide)

/-! ## Sync Orchestrator (source `main`, lines 204-225)

The `totalSupply()` call is an oracle (`SupplyResult`); each per-id task's
oracles are keyed by token id. A batch is the inner loop of lines 212-215;
batches are awaited one after another (line 218). -/

/-- `BATCH_SIZE` (line 209). -/
def BATCH_SIZE : Nat := 10

/-- One batch (lines 212-215): ids `i + j` for `j < BATCH_SIZE` with
`i + j <= totalSupply`. -/
def mkBatch (i total : Nat) : List Nat :=
  (List.range BATCH_SIZE).filterMap
    (fun j => if i + j ≤ total then some (i + j) else none)

/-- The outer loop of line 211 (`for i = 1; i <= totalSupply; i += BATCH_SIZE`)
with explicit fuel. -/
def batchesAux (total : Nat) : Nat → Nat → List (List Nat)
  | 0, _ => []
  | fuel + 1, i =>
      if i ≤ total then mkBatch i total :: batchesAux total fuel (i + BATCH_SIZE)
      else []

/-- The batch partition of the inclusive id range `[1, totalSupply]`. -/
def batches (total : Nat) : List (List Nat) :=
  batchesAux total (total + 1) 1

/-- Result of the initial `totalSupply()` read (line 206). -/
inductive SupplyResult where
  | ok (total : Nat) : SupplyResult
  | err : SupplyResult
deriving DecidableEq

/-- Outcome of the whole run: `fatal` is the catch of lines 222-224 on the
supply read (no batch processed); `completed` lists, batch by batch in
order, each processed id with its task outcome. -/
inductive RunOutcome where
  | fatal : RunOutcome
  | completed (results : List (List (Nat × TaskOutcome))) : RunOutcome
deriving DecidableEq

/-- Embedding of `main()` (lines 204-225): read the total supply, partition
`[1, totalSupply]` into batches and run `processNFT` on every id of every
batch (the per-id oracles are keyed by id). -/
def runSync (supply : SupplyResult) (att : Nat → Nat → ChainResult)
    (http : Nat → String → FetchResult) (existing : Nat → Option PriorRow)
    (dbOk : Nat → Bool) (cfg : Config) (now : String) : RunOutcome :=
  match supply with
  | SupplyResult.err => RunOutcome.fatal
  | SupplyResult.ok total =>
      RunOutcome.completed
        ((batches total).map (fun b =>
          b.map (fun id =>
            (id, processNFT (att id) (http id) (existing id) (dbOk id) cfg now id))))

/-! ### Batch partition lemmas -/

lemma filterMapRange (n i total : Nat) :
    (List.range n).filterMap (fun j => if i + j ≤ total then some (i + j) else none)
      = List.range' i (min n (total + 1 - i)) := by
  induction n with
  | zero => simp
  | succ m ih =>
      rw [List.range_succ, List.filterMap_append, ih]
      by_cases hm : i + m ≤ total
      · have hmin₁ : min (m + 1) (total + 1 - i) = m + 1 := by omega
        have hmin₂ : min m (total + 1 - i) = m := by omega
        rw [hmin₁, hmin₂]
        simp only [List.filterMap_cons, List.filterMap_nil, if_pos hm]
        have : List.range' i (m + 1) = List.range' i m ++ [i + m] :=
          List.range'_1_concat i m
        rw [this]
      · have hmin₁ : min (m + 1) (total + 1 - i) = min m (total + 1 - i) := by omega
        rw [hmin₁]
        simp [List.filterMap_cons, if_neg hm]

lemma mkBatch_eq (i total : Nat) :
    mkBatch i total = List.range' i (min BATCH_SIZE (total + 1 - i)) :=
  filterMapRange BATCH_SIZE i total

lemma batchesAux_gt (total fuel i : Nat) (h : total < i) :
    batchesAux total fuel i = [] := by
  cases fuel with
  | zero => rfl
  | succ f => simp [batchesAux, Nat.not_le.2 h]

lemma batchesAux_join (total : Nat) :
    ∀ fuel i, total + 1 ≤ i + BATCH_SIZE * fuel →
      (batchesAux total fuel i).flatten = List.range' i (total + 1 - i) := by
  intro fuel
  induction fuel with
  | zero =>
      intro i h
      have : total + 1 - i = 0 := by omega
      simp [batchesAux, this]
  | succ f ih =>
      intro i h
      by_cases hi : i ≤ total
      · rw [batchesAux, if_pos hi, List.flatten_cons, mkBatch_eq]
        by_cases hfull : BATCH_SIZE ≤ total + 1 - i
        · have hmin : min BATCH_SIZE (total + 1 - i) = BATCH_SIZE := by omega
          rw [hmin, ih (i + BATCH_SIZE) (by simp [BATCH_SIZE] at h ⊢; omega)]
          have := List.range'_append_1 i BATCH_SIZE (total + 1 - (i + BATCH_SIZE))
          rw [this]
          congr 1
          omega
        · have hmin : min BATCH_SIZE (total + 1 - i) = total + 1 - i := by omega
          rw [hmin, batchesAux_gt total f (i + BATCH_SIZE) (by omega)]
          simp
      · rw [batchesAux_gt total (f + 1) i (by omega)]
        have : total + 1 - i = 0 := by omega
        simp [this]

lemma batches_join (total : Nat) :
    (batches total).flatten = List.range' 1 total := by
  have h := batchesAux_join total (total + 1) 1 (by simp [BATCH_SIZE]; omega)
  simpa using h

lemma batchesAux_ne_nil (total fuel i : Nat) (h1 : i ≤ total) (h2 : 0 < fuel) :
    batchesAux total fuel i ≠ [] := by
  cases fuel with
  | zero => omega
  | succ f => simp [batchesAux, h1]

lemma batchesAux_mem_shape (total : Nat) :
    ∀ fuel i b, b ∈ batchesAux total fuel i →
      ∃ k, b = mkBatch k total ∧ i ≤ k ∧ k ≤ total := by
  intro fuel
  induction fuel with
  | zero => intro i b h; simp [batchesAux] at h
  | succ f ih =>
      intro i b h
      by_cases hi : i ≤ total
      · rw [batchesAux, if_pos hi] at h
        rcases List.mem_cons.1 h with h | h
        · exact ⟨i, h, Nat.le_refl i, hi⟩
        · obtain ⟨k, hb, hk1, hk2⟩ := ih (i + BATCH_SIZE) b h
          exact ⟨k, hb, by omega, hk2⟩
      · rw [batchesAux, if_neg hi] at h
        simp at h

lemma batchesAux_dropLast_full (total : Nat) :
    ∀ fuel i, total + 1 ≤ i + BATCH_SIZE * fuel →
      ∀ b ∈ (batchesAux total fuel i).dropLast, b.length = BATCH_SIZE := by
  intro fuel
  induction fuel with
  | zero => intro i _ b hb; simp [batchesAux] at hb
  | succ f ih =>
      intro i h b hb
      by_cases hi : i ≤ total
      · rw [batchesAux, if_pos hi] at hb
        by_cases hnext : i + BATCH_SIZE ≤ total
        · have hfpos : 0 < f := by
            rcases Nat.eq_zero_or_pos f with hf | hf
            · subst hf
              simp only [BATCH_SIZE] at h hnext
              omega
            · exact hf
          have hne := batchesAux_ne_nil total f (i + BATCH_SIZE) hnext hfpos
          rcases hrest : batchesAux total f (i + BATCH_SIZE) with _ | ⟨r, rs⟩
          · exact absurd hrest hne
          · rw [hrest] at hb
            rw [List.dropLast_cons₂] at hb
            rcases List.mem_cons.1 hb with hb | hb
            · subst hb
              rw [mkBatch_eq]
              have hmin : min BATCH_SIZE (total + 1 - i) = BATCH_SIZE := by
                simp [BATCH_SIZE] at hnext ⊢; omega
              rw [hmin, List.length_range']
            · have := ih (i + BATCH_SIZE)
                (by simp [BATCH_SIZE] at h ⊢; omega) b
              rw [hrest] at this
              exact this hb
        · rw [batchesAux_gt total f (i + BATCH_SIZE) (by omega)] at hb
          simp at hb
      · rw [batchesAux_gt total (f + 1) i (by omega)] at hb
        simp at hb

lemma batches_dropLast_full (total : Nat) :
    ∀ b ∈ (batches total).dropLast, b.length = BATCH_SIZE :=
  batchesAux_dropLast_full total (total + 1) 1 (by simp [BATCH_SIZE]; omega)

/-- Claim C5: the orchestrator partitions the inclusive range
`[1, totalSupply]` into consecutive batches of size `BATCH_SIZE = 10` (the
last possibly smaller), processed sequentially in increasing id order, every
id appearing in exactly one batch; for `totalSupply = 25` exactly 3 batches
of sizes 10, 10, 5 in that order. -/
theorem claim5_batches :
    (∀ total, (batches total).flatten = List.range' 1 total) ∧
    (∀ total, ∀ b ∈ (batches total).dropLast, b.length = BATCH_SIZE) ∧
    (∀ total, ∀ b ∈ batches total, 0 < b.length ∧ b.length ≤ BATCH_SIZE) ∧
    (∀ total n, (batches total).flatten.count n = 1 ↔ 1 ≤ n ∧ n ≤ total) ∧
    (batches 25).map List.length = [10, 10, 5] ∧
    batches 25
      = [List.range' 1 10, List.range' 11 10, List.range' 21 5] := by
  refine ⟨batches_join, batches_dropLast_full, ?_, ?_, by decide, by decide⟩
  · intro total b hb
    obtain ⟨k, hbk, hk1, hk2⟩ := batchesAux_mem_shape total (total + 1) 1 b hb
    subst hbk
    rw [mkBatch_eq, List.length_range']
    constructor
    · have : 1 ≤ total + 1 - k := by omega
      simp [BATCH_SIZE]
      omega
    · omega
  · intro total n
    rw [batches_join]
    have hnd : (List.range' 1 total).Nodup := List.nodup_range' 1 total
    constructor
    · intro hc
      have hmem : n ∈ List.range' 1 total := by
        rw [← List.count_pos_iff, hc]
        omega
      have := List.mem_range'_1.1 hmem
      omega
    · intro hn
      have hmem : n ∈ List.range' 1 total := List.mem_range'_1.2 (by omega)
      have h1 : 1 ≤ (List.range' 1 total).count n :=
        List.count_pos_iff.2 hmem
      have h2 : (List.range' 1 total).count n ≤ 1 :=
        List.nodup_iff_count_le_one.1 hnd n
      omega

/-- Witness for claim C5 at `totalSupply = 25`. -/
theorem claim5_witness :
    (batches 25).flatten = List.range' 1 25 ∧
    (List.range' 1 10).length = BATCH_SIZE := by
  refine ⟨claim5_batches.1 25, ?_⟩
  exact claim5_batches.2.1 25 (List.range' 1 10) (by decide)

/-- Claim C6: every per-token failure is caught inside the per-id task (a
thrown body always lands in the catch, yielding `failedChain`), a
token-not-found or chain-unavailable task produces no persistence write, the
run processes every batch and every id regardless of per-id outcomes, and the
only failure terminating the run is the initial supply read, which aborts
before any batch is processed. -/
theorem claim6_isolation :
    (∀ att http existing dbOk cfg now tokenid msg,
        processNFTBody att http existing dbOk cfg now tokenid
          = BodyResult.thrown msg →
        processNFT att http existing dbOk cfg now tokenid
          = TaskOutcome.failedChain) ∧
    (∀ att http existing dbOk cfg now tokenid n,
        chainRead att = ChainReadOutcome.notFound n →
        upsertPayload (processNFT att http existing dbOk cfg now tokenid) = none ∧
        persistedRecord (processNFT att http existing dbOk cfg now tokenid) = none) ∧
    (∀ att http existing dbOk cfg now tokenid,
        chainRead att = ChainReadOutcome.unavailable →
        upsertPayload (processNFT att http existing dbOk cfg now tokenid) = none ∧
        persistedRecord (processNFT att http existing dbOk cfg now tokenid) = none) ∧
    (∀ att http existing dbOk cfg now,
        runSync SupplyResult.err att http existing dbOk cfg now
          = RunOutcome.fatal) ∧
    (∀ total att http existing dbOk cfg now,
        ∃ rs, runSync (SupplyResult.ok total) att http existing dbOk cfg now
            = RunOutcome.completed rs ∧
          rs.map (List.map Prod.fst) = batches total) := by
  refine ⟨?_, ?_, ?_, fun _ _ _ _ _ _ => rfl, ?_⟩
  · intro att http existing dbOk cfg now tokenid msg h
    simp [processNFT, h]
  · intro att http existing dbOk cfg now tokenid n h
    simp [processNFT, processNFTBody, h, upsertPayload, persistedRecord]
  · intro att http existing dbOk cfg now tokenid h
    simp [processNFT, processNFTBody, h, upsertPayload, persistedRecord]
  · intro total att http existing dbOk cfg now
    refine ⟨_, rfl, ?_⟩
    rw [List.map_map]
    have : (List.map Prod.fst ∘ fun b =>
        b.map (fun id =>
          (id, processNFT (att id) (http id) (existing id) (dbOk id) cfg now id)))
        = fun b => b := by
      funext b
      simp [Function.comp_def]
    rw [this, List.map_id']

/-- Witness for claim C6: a token-not-found task writes nothing, and a run
over 25 ids with all tokens missing still completes all three batches. -/
theorem claim6_witness :
    upsertPayload (processNFT (fun _ => ChainResult.errNonexistent) httpW4 none
        true cfgW "t4" 1) = none ∧
    (∃ rs, runSync (SupplyResult.ok 25) (fun _ _ => ChainResult.errNonexistent)
          (fun _ => httpW4) (fun _ => none) (fun _ => true) cfgW "t4"
        = RunOutcome.completed rs ∧
      rs.map (List.map Prod.fst) = batches 25) := by
  constructor
  · exact ((claim6_isolation.2.1 (fun _ => ChainResult.errNonexistent) httpW4 none
      true cfgW "t4" 1 1 (by decide))).1
  · exact claim6_isolation.2.2.2.2 25 (fun _ _ => ChainResult.errNonexistent)
      (fun _ => httpW4) (fun _ => none) (fun _ => true) cfgW "t4"

end SyncNFT
